import Mathlib

/-!
Shallow embedding of the gologger repository's batched delivery subsystem:
the alert queue (alertmanager.go), the two historical Loki notifiers
(loki.go and the context-aware variant concatenated into logger.go), the
historical UseLoki sender (unnamed/part_003), the dispatcher validation
path (logger.go), and the readiness probes.  Go maps are modelled as
association lists where insertion removes every older binding of the key,
Go time.Time as Nat (0 is the zero value), and HTTP transports as oracles.
-/

/-- Association list standing for a Go map with string keys. -/
def SMap (β : Type) : Type := List (String × β)

instance {β : Type} [DecidableEq β] : DecidableEq (SMap β) :=
  inferInstanceAs (DecidableEq (List (String × β)))

instance {β : Type} [Repr β] : Repr (SMap β) :=
  inferInstanceAs (Repr (List (String × β)))

/-- Go map lookup: first binding wins (maps built by mapInsert keep keys unique). -/
def mapLookup {β : Type} : SMap β → String → Option β
  | [], _ => none
  | (k', v) :: rest, k => if k' = k then some v else mapLookup rest k

/-- Drop every binding of key k. -/
def mapErase {β : Type} : SMap β → String → SMap β
  | [], _ => []
  | (k', v) :: rest, k => if k' = k then mapErase rest k else (k', v) :: mapErase rest k

/-- Go map assignment m[k] = v: overwrites any previous binding of k. -/
def mapInsert {β : Type} (m : SMap β) (k : String) (v : β) : SMap β :=
  (k, v) :: mapErase m k

/-- Last binding of k in the list (what a fold of Go map writes ends up storing). -/
def lastLookup {β : Type} : SMap β → String → Option β
  | [], _ => none
  | (k', v) :: rest, k =>
    match lastLookup rest k with
    | some w => some w
    | none => if k' = k then some v else none

/-- Go's `for k, v := range base { m[k] = v }`: fold every binding of base into m. -/
def injectAll {β : Type} (base : SMap β) (m : SMap β) : SMap β :=
  base.foldl (fun acc p => mapInsert acc p.1 p.2) m

/-- Go map read with the string zero value for a missing key. -/
def mapLookupD (m : SMap String) (k : String) : String :=
  (mapLookup m k).getD ""

theorem mapLookup_insert_self {β : Type} (m : SMap β) (k : String) (v : β) :
    mapLookup (mapInsert m k v) k = some v := by
  simp [mapInsert, mapLookup]

theorem mapLookup_erase_ne {β : Type} (m : SMap β) (k k' : String) (h : k' ≠ k) :
    mapLookup (mapErase m k) k' = mapLookup m k' := by
  have hkk : ¬ k = k' := fun e => h e.symm
  induction m with
  | nil => rfl
  | cons p rest ih =>
    cases p with
    | mk pk pv =>
      by_cases hp : pk = k
      · simp [mapErase, hp, mapLookup, hkk, ih]
      · by_cases hk : pk = k'
        · simp [mapErase, hp, mapLookup, hk, h]
        · simp [mapErase, hp, mapLookup, hk, ih]

theorem mapLookup_insert_ne {β : Type} (m : SMap β) (k k' : String) (v : β) (h : k' ≠ k) :
    mapLookup (mapInsert m k v) k' = mapLookup m k' := by
  have hne : ¬ k = k' := fun hk => h hk.symm
  simp [mapInsert, mapLookup, hne, mapLookup_erase_ne m k k' h]

theorem lastLookup_erase_self {β : Type} (m : SMap β) (k : String) :
    lastLookup (mapErase m k) k = none := by
  induction m with
  | nil => rfl
  | cons p rest ih =>
    cases p with
    | mk pk pv =>
      by_cases hp : pk = k
      · simpa [mapErase, hp] using ih
      · simp [mapErase, hp, lastLookup, ih]

theorem lastLookup_erase_ne {β : Type} (m : SMap β) (k k' : String) (h : k' ≠ k) :
    lastLookup (mapErase m k) k' = lastLookup m k' := by
  induction m with
  | nil => rfl
  | cons p rest ih =>
    cases p with
    | mk pk pv =>
      have hkk : ¬ k = k' := fun e => h e.symm
      by_cases hp : pk = k
      · simp only [mapErase, hp, if_true, ih, lastLookup]
        cases hl : lastLookup rest k' with
        | some w => rfl
        | none => simp [hkk]
      · simp only [mapErase, hp, if_false, lastLookup, ih]

theorem lastLookup_insert_self {β : Type} (m : SMap β) (k : String) (v : β) :
    lastLookup (mapInsert m k v) k = some v := by
  simp [mapInsert, lastLookup, lastLookup_erase_self]

theorem lastLookup_insert_ne {β : Type} (m : SMap β) (k k' : String) (v : β) (h : k' ≠ k) :
    lastLookup (mapInsert m k v) k' = lastLookup m k' := by
  have hne : ¬ k = k' := fun hk => h hk.symm
  simp only [mapInsert, lastLookup, lastLookup_erase_ne m k k' h]
  cases hl : lastLookup m k' with
  | some w => rfl
  | none => simp [hne]

theorem injectAll_lookup {β : Type} (base : SMap β) :
    ∀ (m : SMap β) (k : String),
      mapLookup (injectAll base m) k =
        match lastLookup base k with
        | some v => some v
        | none => mapLookup m k := by
  induction base with
  | nil => intro m k; rfl
  | cons p rest ih =>
    intro m k
    have hstep : injectAll (p :: rest) m = injectAll rest (mapInsert m p.1 p.2) := rfl
    rw [hstep, ih]
    cases hl : lastLookup rest k with
    | some w => simp [lastLookup, hl]
    | none =>
      by_cases hk : p.1 = k
      · subst hk
        simp [lastLookup, hl, mapLookup_insert_self]
      · simp [lastLookup, hl, hk, mapLookup_insert_ne m p.1 k p.2 (fun h => hk h.symm)]

/-- Log levels of log/slog used by the repository (slog numeric values). -/
inductive SlogLevel : Type
  | debug
  | info
  | warn
  | error
deriving DecidableEq, Repr

/-- Numeric value of a slog level (slog.LevelDebug = -4, Info = 0, Warn = 4, Error = 8). -/
def levelNum : SlogLevel → Int
  | .debug => -4
  | .info => 0
  | .warn => 4
  | .error => 8

/-- slog.Level.String() for the four standard levels. -/
def slogLevelString : SlogLevel → String
  | .debug => "DEBUG"
  | .info => "INFO"
  | .warn => "WARN"
  | .error => "ERROR"

/-- Values carried in variadic log arguments and attribute maps (Go `any`). -/
inductive GoVal : Type
  | vstr (s : String)
  | vtime (t : Nat)
  | vint (n : Int)
  | vbool (b : Bool)
  | vnil
deriving DecidableEq, Repr

/-- The aalert struct of alertmanager.go (time.Time as Nat, 0 the zero value). -/
structure Aalert : Type where
  labels : SMap String
  annotations : SMap String
  generatorURL : String
  startsAt : Nat
  endsAt : Nat
deriving DecidableEq, Repr

/-- Zero value of the aalert struct: nil maps, empty string, zero times. -/
def azero : Aalert :=
  { labels := [], annotations := [], generatorURL := "", startsAt := 0, endsAt := 0 }

/-- Zero-value defaulting of startsAt and endsAt performed by Alert
    (alertmanager.go lines 93-102): a zero startsAt becomes endsAt if that is
    set and otherwise time.Now(); a zero endsAt then becomes startsAt. -/
def defaultTimes (startsAt endsAt now : Nat) : Nat × Nat :=
  let s1 := if startsAt = 0 then (if endsAt = 0 then now else endsAt) else startsAt
  let e1 := if endsAt = 0 then s1 else endsAt
  (s1, e1)

/-- Result of a call to Alert: the verdict together with the caller-visible
    final contents of the labels and annotations maps (Go maps are references,
    so assignments inside Alert are seen by the caller when a map was passed;
    `none` models a nil map, which Alert replaces by a fresh local map the
    caller never sees). On success the payload is the aalert value placed on
    the alert queue's batch channel; on error nothing is enqueued. -/
structure AlertOutcome : Type where
  res : Except String Aalert
  labelsOut : Option (SMap String)
  annotationsOut : Option (SMap String)
deriving Repr

/-- The Alert function of alertmanager.go (lines 72-117), with the global
    queue presence as `inited`, time.Now() as `now`, and the enqueue onto the
    batch channel represented by a successful result. -/
def Alert (inited : Bool) (name summary : String) (startsAt endsAt : Nat)
    (labels annotations : Option (SMap String)) (generatorURL : String) (now : Nat) :
    AlertOutcome :=
  if ¬ inited then
    { res := .error "alertmanager not not intialized. Use WithAlertManager to initialize it",
      labelsOut := labels, annotationsOut := annotations }
  else if name = "" then
    { res := .error "name must be set", labelsOut := labels, annotationsOut := annotations }
  else
    let lm : SMap String := mapInsert (labels.getD []) "alertname" name
    let labelsOut : Option (SMap String) := labels.map (fun _ => lm)
    if summary = "" then
      { res := .error "summary must be set", labelsOut := labelsOut,
        annotationsOut := annotations }
    else
      let am : SMap String := mapInsert (annotations.getD []) "summary" summary
      let annotationsOut : Option (SMap String) := annotations.map (fun _ => am)
      let se := defaultTimes startsAt endsAt now
      if se.1 > se.2 then
        { res := .error "startsAt must be before endsAt", labelsOut := labelsOut,
          annotationsOut := annotationsOut }
      else
        { res := .ok { labels := lm, annotations := am, generatorURL := generatorURL,
                       startsAt := se.1, endsAt := se.2 },
          labelsOut := labelsOut, annotationsOut := annotationsOut }

/-- Base labels stored by WithAlertManager (alertmanager.go lines 35-36): the
    instance and service arguments are written over the caller's baseLabels. -/
def registrationBase (userBase : SMap String) (inst svc : String) : SMap String :=
  mapInsert (mapInsert userBase "instance" inst) "service" svc

theorem defaultTimes_le (s e now : Nat) (h : s ≤ e) :
    ¬ ((defaultTimes s e now).1 > (defaultTimes s e now).2) := by
  unfold defaultTimes
  by_cases h0 : s = 0
  · by_cases h1 : e = 0
    · simp [h0, h1]
    · simp [h0, h1]
  · by_cases h1 : e = 0
    · simp [h0, h1]
    · simp [h0, h1]
      omega

theorem alert_invalid_aux :
    ∀ (inited : Bool) (name summary : String) (startsAt endsAt : Nat)
      (labels annotations : Option (SMap String)) (g : String) (now : Nat),
      (name = "" ∨ summary = "" ∨
        (defaultTimes startsAt endsAt now).1 > (defaultTimes startsAt endsAt now).2) →
      ((Alert inited name summary startsAt endsAt labels annotations g now).res).isOk = false := by
  intro inited name summary s e labels ann g now h
  unfold Alert
  by_cases hin : inited
  · simp only [hin, not_true_eq_false, if_false]
    rcases h with h | h | h
    · simp [h, Except.isOk, Except.toBool]
    · by_cases hn : name = ""
      · simp [hn, Except.isOk, Except.toBool]
      · simp [hn, h, Except.isOk, Except.toBool]
    · by_cases hn : name = ""
      · simp [hn, Except.isOk, Except.toBool]
      · by_cases hs : summary = ""
        · simp [hn, hs, Except.isOk, Except.toBool]
        · simp [hn, hs, h, Except.isOk, Except.toBool]
  · simp [hin, Except.isOk, Except.toBool]

/-- Claim C3: a call to Alert with empty name, or empty summary, or (after the
    zero-value defaulting of the timestamps) startsAt strictly after endsAt,
    returns a non-nil error, and no alert is placed on the alert queue's batch
    channel (an enqueue happens exactly on an ok result of the embedding). -/
theorem alert_invalid_input_errors :
    ∀ (inited : Bool) (name summary : String) (startsAt endsAt : Nat)
      (labels annotations : Option (SMap String)) (g : String) (now : Nat),
      (name = "" ∨ summary = "" ∨
        (defaultTimes startsAt endsAt now).1 > (defaultTimes startsAt endsAt now).2) →
      ((Alert inited name summary startsAt endsAt labels annotations g now).res).isOk = false :=
  alert_invalid_aux

/-- Witness for alert_invalid_input_errors at a concrete invalid input. -/
theorem alert_invalid_input_errors_witness :
    ((Alert true "" "sum" 0 0 none none "" 5).res).isOk = false :=
  alert_invalid_input_errors true "" "sum" 0 0 none none "" 5 (Or.inl rfl)

/-- Claim C2: a valid Alert call (non-empty name and summary, startsAt at most
    endsAt, sink initialized) succeeds, and after the base-label injection that
    AlertQueue.run performs before sending, the wire alert's labels carry the
    keys alertname, instance and service, with instance and service bound to
    the values injected at registration, base labels winning on any key
    collision, and alertname bound to the given name whenever the base labels
    do not themselves bind alertname. -/
theorem alert_wire_labels_contain_injected :
    ∀ (userBase : SMap String) (inst svc name summary : String) (s e now : Nat)
      (labels annotations : Option (SMap String)) (g : String),
      name ≠ "" → summary ≠ "" → s ≤ e →
      ∃ a : Aalert,
        (Alert true name summary s e labels annotations g now).res = .ok a ∧
        (mapLookup (injectAll (registrationBase userBase inst svc) a.labels)
          "alertname").isSome = true ∧
        mapLookup (injectAll (registrationBase userBase inst svc) a.labels)
          "instance" = some inst ∧
        mapLookup (injectAll (registrationBase userBase inst svc) a.labels)
          "service" = some svc ∧
        (∀ k v, lastLookup (registrationBase userBase inst svc) k = some v →
          mapLookup (injectAll (registrationBase userBase inst svc) a.labels) k = some v) ∧
        (lastLookup (registrationBase userBase inst svc) "alertname" = none →
          mapLookup (injectAll (registrationBase userBase inst svc) a.labels)
            "alertname" = some name) := by
  intro userBase inst svc name summary s e now labels ann g hname hsummary hse
  have hgt := defaultTimes_le s e now hse
  refine ⟨{ labels := mapInsert (labels.getD []) "alertname" name,
            annotations := mapInsert (ann.getD []) "summary" summary,
            generatorURL := g,
            startsAt := (defaultTimes s e now).1, endsAt := (defaultTimes s e now).2 },
          ?_, ?_, ?_, ?_, ?_, ?_⟩
  · unfold Alert
    simp [hname, hsummary, hgt]
  · rw [injectAll_lookup]
    cases hl : lastLookup (registrationBase userBase inst svc) "alertname" with
    | some w => simp
    | none => simp [mapLookup_insert_self]
  · rw [injectAll_lookup]
    have : lastLookup (registrationBase userBase inst svc) "instance" = some inst := by
      unfold registrationBase
      rw [lastLookup_insert_ne _ _ _ _ (by decide)]
      exact lastLookup_insert_self _ _ _
    simp [this]
  · rw [injectAll_lookup]
    have : lastLookup (registrationBase userBase inst svc) "service" = some svc :=
      lastLookup_insert_self _ _ _
    simp [this]
  · intro k v hkv
    rw [injectAll_lookup]
    simp [hkv]
  · intro hnone
    rw [injectAll_lookup]
    simp [hnone, mapLookup_insert_self]

/-- Witness for alert_wire_labels_contain_injected at a concrete valid input. -/
theorem alert_wire_labels_contain_injected_witness :
    ((Alert true "n" "sum" 1 2 none none "" 9).res).isOk = true ∧
    mapLookup (injectAll (registrationBase [("team", "x")] "i1" "s1")
      (((Alert true "n" "sum" 1 2 none none "" 9).res).toOption.getD azero).labels)
      "instance" = some "i1" := by
  obtain ⟨a, ha, hsome, hinst, hsvc, hwin, halert⟩ :=
    alert_wire_labels_contain_injected [("team", "x")] "i1" "s1" "n" "sum" 1 2 9
      none none "" (by decide) (by decide) (by decide)
  constructor
  · rw [ha]; rfl
  · rw [ha]
    exact hinst

/-- Claim C10: Alert writes alertname into the caller-supplied labels map
    before validating the summary and the timestamps, so a call with non-empty
    name that fails on an empty summary or on startsAt after endsAt still
    leaves the caller's labels map mutated to contain alertname. -/
theorem alert_mutates_labels_before_validation :
    ∀ (name summary : String) (s e : Nat) (m : SMap String)
      (ann : Option (SMap String)) (g : String) (now : Nat),
      name ≠ "" →
      (summary = "" ∨ (defaultTimes s e now).1 > (defaultTimes s e now).2) →
      ((Alert true name summary s e (some m) ann g now).res).isOk = false ∧
      (Alert true name summary s e (some m) ann g now).labelsOut =
        some (mapInsert m "alertname" name) ∧
      mapLookup (mapInsert m "alertname" name) "alertname" = some name := by
  intro name summary s e m ann g now hname h
  refine ⟨?_, ?_, mapLookup_insert_self m "alertname" name⟩
  · exact alert_invalid_aux true name summary s e (some m) ann g now
      (Or.inr (by rcases h with h | h; exact Or.inl h; exact Or.inr h))
  · unfold Alert
    rcases h with h | h
    · simp [hname, h]
    · by_cases hs : summary = ""
      · simp [hname, hs]
      · simp [hname, hs, h]

/-- Witness for alert_mutates_labels_before_validation: a concrete failing
    call whose caller map ends up containing alertname. -/
theorem alert_mutates_labels_before_validation_witness :
    ((Alert true "n" "" 0 0 (some [("k", "v")]) none "" 5).res).isOk = false ∧
    (Alert true "n" "" 0 0 (some [("k", "v")]) none "" 5).labelsOut =
      some (mapInsert [("k", "v")] "alertname" "n") ∧
    mapLookup (mapInsert [("k", "v")] "alertname" "n") "alertname" = some "n" :=
  alert_mutates_labels_before_validation "n" "" 0 0 [("k", "v")] none "" 5
    (by decide) (Or.inl rfl)

/-- Outcome of one http.Get against the /ready endpoint: a transport-level
    failure, or a response with the given status code. -/
inductive TResp : Type
  | failed
  | status (code : Nat)
deriving DecidableEq, Repr

/-- The readiness-probe loop shared by waitForAlertmanager (alertmanager.go
    lines 218-239), waitForLoki in loki.go (lines 210-231) and waitForLoki in
    the context variant (logger.go lines 437-458).  The Go loop keeps a counter
    and exits with an error once attempts exceeds its bound; `fuel` is the
    number of attempts still allowed (bound + 1 - attempts), and the second
    component counts the GET requests issued.  A transport error and a
    non-200 status both increment attempts and retry; a 200 returns nil. -/
def waitLoopF (resp : Nat → TResp) : Nat → Nat → Except String Unit × Nat
  | _, 0 => (.error "could not connect to loki", 0)
  | i, fuel + 1 =>
    if resp i = .status 200 then (.ok (), 1)
    else
      let p := waitLoopF resp (i + 1) fuel
      (p.1, p.2 + 1)

/-- waitForAlertmanager of alertmanager.go: bound `attempts > 5`, so at most
    6 GET attempts. -/
def waitForAlertmanagerGo (resp : Nat → TResp) : Except String Unit × Nat :=
  waitLoopF resp 0 6

/-- waitForLoki of loki.go: bound `attempts > 5`, so at most 6 GET attempts. -/
def waitForLokiGo (resp : Nat → TResp) : Except String Unit × Nat :=
  waitLoopF resp 0 6

/-- waitForLoki of the context variant in logger.go: bound `attempts > 1`,
    so at most 2 GET attempts. -/
def waitForLokiCtxGo (resp : Nat → TResp) : Except String Unit × Nat :=
  waitLoopF resp 0 2

theorem waitLoopF_count_le (resp : Nat → TResp) :
    ∀ (fuel i : Nat), (waitLoopF resp i fuel).2 ≤ fuel := by
  intro fuel
  induction fuel with
  | zero => intro i; simp [waitLoopF]
  | succ n ih =>
    intro i
    by_cases h : resp i = .status 200
    · simp [waitLoopF, h]
    · simp only [waitLoopF, h, if_false]
      exact Nat.succ_le_succ (ih (i + 1))

theorem waitLoopF_exhaust (resp : Nat → TResp) :
    ∀ (fuel i : Nat), (∀ j, i ≤ j → j < i + fuel → resp j ≠ .status 200) →
      waitLoopF resp i fuel = (.error "could not connect to loki", fuel) := by
  intro fuel
  induction fuel with
  | zero => intro i _; rfl
  | succ n ih =>
    intro i h
    have hi : resp i ≠ .status 200 := h i (Nat.le_refl i) (by omega)
    simp only [waitLoopF, hi, if_false]
    rw [ih (i + 1) (fun j hj hj2 => h j (by omega) (by omega))]

theorem waitLoopF_hit (resp : Nat → TResp) :
    ∀ (fuel i k : Nat), i ≤ k → k < i + fuel → resp k = .status 200 →
      (∀ j, i ≤ j → j < k → resp j ≠ .status 200) →
      waitLoopF resp i fuel = (.ok (), k + 1 - i) := by
  intro fuel
  induction fuel with
  | zero => intro i k h1 h2; omega
  | succ n ih =>
    intro i k h1 h2 hk hfirst
    by_cases hik : i = k
    · subst hik
      simp [waitLoopF, hk]
    · have hi : resp i ≠ .status 200 := hfirst i (Nat.le_refl i) (by omega)
      simp only [waitLoopF, hi, if_false]
      rw [ih (i + 1) k (by omega) (by omega) hk (fun j hj hj2 => hfirst j (by omega) hj2)]
      simp
      omega

/-- State of the active alert sink stored in the global alertQueue variable. -/
structure AlertQueueSt : Type where
  host : String
  baseLabels : SMap String
  batchWaitSec : Nat
deriving DecidableEq, Repr

/-- WithAlertManager of alertmanager.go (lines 22-55) as a transition on the
    global alertQueue (`none` when no alert sink is active): validate the
    arguments, run the readiness probe, reject a second registration, and
    otherwise store the new queue with the injected base labels. -/
def withAlertManagerGo (st : Option AlertQueueSt) (host inst svc : String)
    (userBase : SMap String) (resp : Nat → TResp) :
    Except String Unit × Option AlertQueueSt :=
  if host = "" then (.error "alertmanagerHost must be set", st)
  else if inst = "" then (.error "instance must be set", st)
  else if svc = "" then (.error "service must be set", st)
  else
    match (waitForAlertmanagerGo resp).1 with
    | .error e => (.error e, st)
    | .ok _ =>
      match st with
      | some q => (.error "alertmanager already set up", some q)
      | none => (.ok (), some { host := host,
                                baseLabels := registrationBase userBase inst svc,
                                batchWaitSec := 5 })

/-- Claim C6: registering an alert sink while one is already active returns a
    non-nil error on every path, and the previously active queue's stored
    state is unchanged by the failed registration. -/
theorem second_alert_sink_rejected :
    ∀ (host inst svc : String) (ub : SMap String) (resp : Nat → TResp)
      (q : AlertQueueSt),
      ((withAlertManagerGo (some q) host inst svc ub resp).1).isOk = false ∧
      (withAlertManagerGo (some q) host inst svc ub resp).2 = some q := by
  intro host inst svc ub resp q
  unfold withAlertManagerGo
  by_cases hh : host = ""
  · simp [hh, Except.isOk, Except.toBool]
  · by_cases hi : inst = ""
    · simp [hh, hi, Except.isOk, Except.toBool]
    · by_cases hs : svc = ""
      · simp [hh, hi, hs, Except.isOk, Except.toBool]
      · simp only [hh, hi, hs, if_false]
        cases hp : (waitForAlertmanagerGo resp).1 with
        | error e => simp [Except.isOk, Except.toBool]
        | ok u => simp [Except.isOk, Except.toBool]

/-- Claim C7: every readiness probe terminates within its fixed attempt bound
    (6 GETs for waitForAlertmanager and loki.go's waitForLoki, 2 for the
    context variant, all within the stated 2-6 range), returns nil at the
    first attempt that yields status 200, returns an error once the bound is
    exhausted, and an exhausted alertmanager probe makes WithAlertManager
    fail without registering or changing any sink state. -/
theorem readiness_probe_bounded :
    ∀ resp : Nat → TResp,
      ((waitForAlertmanagerGo resp).2 ≤ 6 ∧ (waitForLokiGo resp).2 ≤ 6 ∧
        (waitForLokiCtxGo resp).2 ≤ 2)
      ∧ (∀ k, k < 6 → resp k = .status 200 →
          (∀ j, j < k → resp j ≠ .status 200) →
          waitForAlertmanagerGo resp = (.ok (), k + 1) ∧
          waitForLokiGo resp = (.ok (), k + 1))
      ∧ (∀ k, k < 2 → resp k = .status 200 →
          (∀ j, j < k → resp j ≠ .status 200) →
          waitForLokiCtxGo resp = (.ok (), k + 1))
      ∧ ((∀ j, j < 6 → resp j ≠ .status 200) →
          ((waitForAlertmanagerGo resp).1).isOk = false ∧
          ((waitForLokiGo resp).1).isOk = false ∧
          ∀ (st : Option AlertQueueSt) (host inst svc : String) (ub : SMap String),
            ((withAlertManagerGo st host inst svc ub resp).1).isOk = false ∧
            (withAlertManagerGo st host inst svc ub resp).2 = st)
      ∧ ((∀ j, j < 2 → resp j ≠ .status 200) →
          ((waitForLokiCtxGo resp).1).isOk = false) := by
  intro resp
  refine ⟨⟨waitLoopF_count_le resp 6 0, waitLoopF_count_le resp 6 0,
           waitLoopF_count_le resp 2 0⟩, ?_, ?_, ?_, ?_⟩
  · intro k hk h200 hfirst
    have h := waitLoopF_hit resp 6 0 k (Nat.zero_le k) (by omega) h200
      (fun j _ hj2 => hfirst j hj2)
    constructor
    · unfold waitForAlertmanagerGo
      rw [h]
      norm_num
    · unfold waitForLokiGo
      rw [h]
      norm_num
  · intro k hk h200 hfirst
    have h := waitLoopF_hit resp 2 0 k (Nat.zero_le k) (by omega) h200
      (fun j _ hj2 => hfirst j hj2)
    unfold waitForLokiCtxGo
    rw [h]
    norm_num
  · intro hnone
    have h := waitLoopF_exhaust resp 6 0 (fun j _ hj2 => hnone j (by omega))
    have hfail : ((waitForAlertmanagerGo resp).1).isOk = false := by
      unfold waitForAlertmanagerGo
      rw [h]
      rfl
    refine ⟨hfail, ?_, ?_⟩
    · unfold waitForLokiGo
      rw [h]
      rfl
    · intro st host inst svc ub
      unfold withAlertManagerGo
      by_cases hh : host = ""
      · simp [hh, Except.isOk, Except.toBool]
      · by_cases hi : inst = ""
        · simp [hh, hi, Except.isOk, Except.toBool]
        · by_cases hs : svc = ""
          · simp [hh, hi, hs, Except.isOk, Except.toBool]
          · have hp : (waitForAlertmanagerGo resp).1 =
                .error "could not connect to loki" := by
              unfold waitForAlertmanagerGo
              rw [h]
            simp [hh, hi, hs, hp, Except.isOk, Except.toBool]
  · intro hnone
    have h := waitLoopF_exhaust resp 2 0 (fun j _ hj2 => hnone j (by omega))
    unfold waitForLokiCtxGo
    rw [h]
    rfl

/-- Witness for readiness_probe_bounded: with every GET failing, the probe
    errors out and WithAlertManager registers nothing. -/
theorem readiness_probe_bounded_witness :
    ((waitForAlertmanagerGo (fun _ => TResp.failed)).1).isOk = false ∧
    (withAlertManagerGo none "h" "i" "s" [] (fun _ => TResp.failed)).2 = none := by
  have h := (readiness_probe_bounded (fun _ => TResp.failed)).2.2.2.1
    (by intro j hj; simp)
  exact ⟨h.1, (h.2.2 none "h" "i" "s" []).2⟩

/-- Positional indexing of a list (Go slice indexing). -/
def nthA {α : Type} : List α → Nat → Option α
  | [], _ => none
  | x :: _, 0 => some x
  | _ :: xs, n + 1 => nthA xs n

theorem nthA_map {α β : Type} (f : α → β) :
    ∀ (l : List α) (i : Nat), nthA (l.map f) i = (nthA l i).map f := by
  intro l
  induction l with
  | nil => intro i; cases i <;> rfl
  | cons x xs ih =>
    intro i
    cases i with
    | zero => rfl
    | succ n => simpa [nthA] using ih n

/-- The logEntry struct used by both Loki notifiers (loki.go lines 110-115,
    logger.go lines 311-316): level, timestamp (excluded from the JSON body),
    message, and the additionalValues map. -/
structure LogEntryE : Type where
  level : SlogLevel
  timestamp : Nat
  message : String
  additionalValues : SMap GoVal
deriving DecidableEq, Repr

/-- Zero value of logEntry: slog.Level 0 is Info, nil map, zero time. -/
def lzero : LogEntryE :=
  { level := .info, timestamp := 0, message := "", additionalValues := [] }

/-- One record written through the synchronous slog path. -/
structure SlogRec : Type where
  level : SlogLevel
  msg : String
  attrs : SMap GoVal
deriving DecidableEq, Repr

/-- aalert.String() (alertmanager.go lines 120-135): alertname and instance,
    plus the summary when non-empty, joined by comma-space. -/
def aalertString (a : Aalert) : String :=
  let alertName := mapLookupD a.labels "alertname"
  let inst := mapLookupD a.labels "instance"
  let summary := mapLookupD a.annotations "summary"
  let parts := ["Alertname: " ++ alertName, "Instance: " ++ inst]
  let parts := if summary ≠ "" then parts ++ ["Summary: " ++ summary] else parts
  String.intercalate ", " parts

/-- The joined alert list put into the single failure log line
    (alertmanager.go line 161: mapSlice + strings.Join). -/
def alertsJoined (batch : List Aalert) : String :=
  String.intercalate ", " (batch.map aalertString)

/-- Failure handling of AlertQueue.run (alertmanager.go lines 160-164): one
    slog.Error line carrying the host, the error and the joined alert list;
    no per-alert re-emission. -/
def alertFallbackLogs (host errMsg : String) (batch : List Aalert) : List SlogRec :=
  [{ level := .error, msg := "failed to send batch to alertmanager",
     attrs := [("alertmanagerHost", .vstr host), ("err", .vstr errMsg),
               ("alerts", .vstr (alertsJoined batch))] }]

/-- The single failure-summary line of the Loki fallback (loki.go line 142,
    logger.go line 355). -/
def lokiFailRec (host errMsg : String) : SlogRec :=
  { level := .error, msg := "failed to send batch to loki",
    attrs := [("lokiHost", .vstr host), ("err", .vstr errMsg)] }

/-- Per-entry re-emission of the Loki fallback (loki.go lines 143-149,
    logger.go lines 356-362): the entry is replayed at its own level and
    message with originalTimestamp added to its attribute map. -/
def lokiReEmit (e : LogEntryE) : SlogRec :=
  { level := e.level, msg := e.message,
    attrs := mapInsert e.additionalValues "originalTimestamp" (.vtime e.timestamp) }

/-- Failure handling of both LokiNotifier.run variants: one summary line, then
    one re-emission per entry of the failed batch, in batch order. -/
def lokiFallbackLogs (host errMsg : String) (batch : List LogEntryE) : List SlogRec :=
  lokiFailRec host errMsg :: batch.map lokiReEmit

/-- Events multiplexed by a batching run loop: a message arriving on the batch
    channel, a ticker tick, and context cancellation. -/
inductive Ev (α : Type) : Type
  | recv (a : α)
  | tick
  | done
deriving DecidableEq, Repr

/-- State of AlertQueue.run: the accumulator slice, the batches handed to
    send, the slog records written, and whether the loop has returned. -/
structure AQState : Type where
  batch : List Aalert
  sends : List (List Aalert)
  logs : List SlogRec
  stopped : Bool
deriving DecidableEq, Repr

/-- sendAlerts of AlertQueue.run (alertmanager.go lines 147-166): skip an
    empty batch; inject the base labels into every alert of the live batch;
    send it (outcome given by the sendErr oracle, none meaning success); on
    failure write the single summary line; then clear(currentBatch), which in
    Go zeroes the slice elements but keeps its length. -/
def aqFlush (host : String) (base : SMap String)
    (sendErr : List Aalert → Option String) (st : AQState) : AQState :=
  if st.batch.isEmpty then st
  else
    let inj := st.batch.map (fun al => { al with labels := injectAll base al.labels })
    let logs' := match sendErr inj with
      | none => st.logs
      | some m => st.logs ++ alertFallbackLogs host m inj
    { st with sends := st.sends ++ [inj], logs := logs',
              batch := st.batch.map (fun _ => azero) }

/-- One iteration of the select loop of AlertQueue.run (lines 170-181). -/
def aqStep (host : String) (base : SMap String)
    (sendErr : List Aalert → Option String) (st : AQState) : Ev Aalert → AQState
  | .recv a => if st.stopped then st else { st with batch := st.batch ++ [a] }
  | .tick => if st.stopped then st else aqFlush host base sendErr st
  | .done => if st.stopped then st else { aqFlush host base sendErr st with stopped := true }

/-- AlertQueue.run over a sequence of events, from the empty accumulator. -/
def aqRun (host : String) (base : SMap String)
    (sendErr : List Aalert → Option String) (evs : List (Ev Aalert)) : AQState :=
  evs.foldl (aqStep host base sendErr) { batch := [], sends := [], logs := [], stopped := false }

/-- State of LokiNotifier.run in loki.go (no cancellation case). -/
structure LKState : Type where
  batch : List LogEntryE
  sends : List (List LogEntryE)
  logs : List SlogRec
deriving DecidableEq, Repr

/-- One iteration of LokiNotifier.run of loki.go (lines 126-154): append on
    receive; on tick skip an empty batch, otherwise send, fall back on error,
    and clear(currentBatch), which zeroes the elements but keeps the length.
    This variant has no context case, so done is ignored. -/
def lkStep (host : String) (sendErr : List LogEntryE → Option String)
    (st : LKState) : Ev LogEntryE → LKState
  | .recv e => { st with batch := st.batch ++ [e] }
  | .tick =>
      if st.batch.isEmpty then st
      else
        let logs' := match sendErr st.batch with
          | none => st.logs
          | some m => st.logs ++ lokiFallbackLogs host m st.batch
        { batch := st.batch.map (fun _ => lzero), sends := st.sends ++ [st.batch],
          logs := logs' }
  | .done => st

/-- LokiNotifier.run of loki.go over a sequence of events. -/
def lkRun (host : String) (sendErr : List LogEntryE → Option String)
    (evs : List (Ev LogEntryE)) : LKState :=
  evs.foldl (lkStep host sendErr) { batch := [], sends := [], logs := [] }

/-- State of the context variant of LokiNotifier.run (logger.go). -/
structure LCState : Type where
  batch : List LogEntryE
  sends : List (List LogEntryE)
  logs : List SlogRec
  stopped : Bool
deriving DecidableEq, Repr

/-- sendLogs of the context variant (logger.go lines 347-365): skip an empty
    batch, send, fall back on error, then reallocate the accumulator
    (currentBatch = make, so it really becomes empty). -/
def lcFlush (host : String) (sendErr : List LogEntryE → Option String)
    (st : LCState) : LCState :=
  if st.batch.isEmpty then st
  else
    let logs' := match sendErr st.batch with
      | none => st.logs
      | some m => st.logs ++ lokiFallbackLogs host m st.batch
    { st with sends := st.sends ++ [st.batch], logs := logs', batch := [] }

/-- One iteration of the context variant of LokiNotifier.run (lines 369-381). -/
def lcStep (host : String) (sendErr : List LogEntryE → Option String)
    (st : LCState) : Ev LogEntryE → LCState
  | .recv e => if st.stopped then st else { st with batch := st.batch ++ [e] }
  | .tick => if st.stopped then st else lcFlush host sendErr st
  | .done => if st.stopped then st else { lcFlush host sendErr st with stopped := true }

/-- The context variant of LokiNotifier.run over a sequence of events. -/
def lcRun (host : String) (sendErr : List LogEntryE → Option String)
    (evs : List (Ev LogEntryE)) : LCState :=
  evs.foldl (lcStep host sendErr) { batch := [], sends := [], logs := [], stopped := false }

/-- A concrete alert used to exercise the run loops. -/
def sampleAlert : Aalert :=
  { labels := [("alertname", "x")], annotations := [("summary", "s")],
    generatorURL := "", startsAt := 1, endsAt := 1 }

/-- A second concrete alert. -/
def sampleAlert2 : Aalert :=
  { labels := [("alertname", "y")], annotations := [("summary", "t")],
    generatorURL := "", startsAt := 2, endsAt := 2 }

/-- A concrete log entry used to exercise the run loops. -/
def sampleEntry : LogEntryE :=
  { level := .error, timestamp := 3, message := "m", additionalValues := [] }

/-- Claim C1: after a tick flush of a one-alert batch, AlertQueue.run's
    accumulator is not empty but holds a zero-valued alert (Go clear on a
    slice zeroes elements and keeps the length), and the next tick re-sends
    that zero-valued alert which never arrived after the snapshot; loki.go's
    LokiNotifier.run behaves the same; only the context variant in logger.go
    leaves the accumulator empty as the claim states. -/
theorem batch_clear_keeps_length_bug :
    ((aqRun "h" [] (fun _ => none) [.recv sampleAlert, .tick]).batch = [azero] ∧
      [azero] ≠ ([] : List Aalert)) ∧
    (aqRun "h" [] (fun _ => none) [.recv sampleAlert, .tick, .tick]).sends =
      [[sampleAlert], [azero]] ∧
    (lkRun "h" (fun _ => none) [.recv sampleEntry, .tick]).batch = [lzero] ∧
    (lcRun "h" (fun _ => none) [.recv sampleEntry, .tick]).batch = [] := by
  refine ⟨⟨?_, ?_⟩, ?_, ?_, ?_⟩ <;> decide

/-- Claim C4 counterexample: for a failed alert batch of two alerts the claim
    demands one re-emission per event plus one failure-summary line (three
    synchronous records); the alert sink's failure handler emits exactly one
    record, the joined summary line, and no per-event re-emission. -/
theorem alert_fallback_no_reemission_cex :
    (alertFallbackLogs "h" "boom" [sampleAlert, sampleAlert2]).length = 1 ∧
    ¬ ((alertFallbackLogs "h" "boom" [sampleAlert, sampleAlert2]).length = 2 + 1) := by
  constructor <;> decide

/-- Claim C4 (amended): when a log-sink batch send fails, both LokiNotifier
    variants emit exactly one failure-summary line followed by exactly one
    re-emission per entry of the failed batch, in order, each annotated with
    the entry's original timestamp under originalTimestamp; when an alert
    batch send fails, the alert sink emits exactly one summary line and no
    per-event re-emission. -/
theorem fallback_reemission_amended :
    ∀ (host errMsg : String) (batch : List LogEntryE) (abatch : List Aalert),
      (lokiFallbackLogs host errMsg batch).length = batch.length + 1 ∧
      nthA (lokiFallbackLogs host errMsg batch) 0 = some (lokiFailRec host errMsg) ∧
      (∀ i e, nthA batch i = some e →
        nthA (lokiFallbackLogs host errMsg batch) (i + 1) = some (lokiReEmit e) ∧
        mapLookup (lokiReEmit e).attrs "originalTimestamp" = some (.vtime e.timestamp)) ∧
      (alertFallbackLogs host errMsg abatch).length = 1 := by
  intro host errMsg batch abatch
  refine ⟨?_, rfl, ?_, rfl⟩
  · simp [lokiFallbackLogs]
  · intro i e he
    constructor
    · show nthA (List.map lokiReEmit batch) i = some (lokiReEmit e)
      rw [nthA_map, he]
      rfl
    · exact mapLookup_insert_self e.additionalValues "originalTimestamp" (.vtime e.timestamp)

/-- Witness for fallback_reemission_amended at a concrete failed batch. -/
theorem fallback_reemission_amended_witness :
    mapLookup (lokiReEmit sampleEntry).attrs "originalTimestamp" =
      some (GoVal.vtime 3) ∧
    (lokiFallbackLogs "h" "e" [sampleEntry]).length = 2 := by
  have h := fallback_reemission_amended "h" "e" [sampleEntry] []
  exact ⟨(h.2.2.1 0 sampleEntry rfl).2, h.1⟩

/-- Status interpretation of LokiNotifier.send (loki.go lines 195-207,
    logger.go lines 422-434): a transport error or any status other than 204
    (http.StatusNoContent) is returned to the caller as an error. -/
def lokiSendGo (r : TResp) : Except String Unit :=
  match r with
  | .failed => .error "could not send batch"
  | .status c => if c = 204 then .ok () else .error "got error response from loki"

/-- Status interpretation of AlertQueue.send (alertmanager.go lines 204-215):
    a transport error or any status other than 200 (http.StatusOK) is
    returned to the caller as an error. -/
def alertSendGo (r : TResp) : Except String Unit :=
  match r with
  | .failed => .error "failed to send alerts"
  | .status c =>
      if c = 200 then .ok ()
      else .error "alertmanager responded with unexpected status code"

/-- Status interpretation of sendBatch in unnamed/part_003 (lines 169-196):
    it returns nothing to its caller; a transport error or a status that is
    neither 204 nor 200 only produces a local slog.Error line, given here as
    the Option result (none meaning the response was accepted). -/
def sendBatchGo (r : TResp) : Option String :=
  match r with
  | .failed => some "Failed to send logs to Loki"
  | .status c =>
      if c ≠ 204 ∧ c ≠ 200 then some "Unexpected response from Loki" else none

/-- A send call consuming exactly one prepared transport response: the source
    of LokiNotifier.send performs a single client.Do with no retry. -/
def lokiSendOnce (responses : List TResp) : Except String Unit × List TResp :=
  match responses with
  | [] => (.error "could not send batch", [])
  | r :: rest => (lokiSendGo r, rest)

/-- AlertQueue.send likewise performs a single http.DefaultClient.Do. -/
def alertSendOnce (responses : List TResp) : Except String Unit × List TResp :=
  match responses with
  | [] => (.error "failed to send alerts", [])
  | r :: rest => (alertSendGo r, rest)

/-- sendBatch of part_003 likewise performs a single client.Do. -/
def sendBatchOnce (responses : List TResp) : Option String × List TResp :=
  match responses with
  | [] => (some "Failed to send logs to Loki", [])
  | r :: rest => (sendBatchGo r, rest)

/-- Claim C5 counterexample: the historical log-push sender sendBatch
    (unnamed/part_003) accepts HTTP status 200 as success, although the claim
    requires any status other than 204 on the log push endpoint to be
    reported as a failure. -/
theorem sendBatch_accepts_200_cex :
    sendBatchGo (TResp.status 200) = none ∧ (200 : Nat) ≠ 204 := by
  constructor <;> decide

/-- Claim C5 (amended): LokiNotifier.send reports success exactly on status
    204 and AlertQueue.send exactly on status 200, each returning any other
    status or transport error to its caller immediately and consuming exactly
    one transport response per call (no re-issue); the historical sendBatch
    of part_003 also issues exactly one request but accepts both 204 and 200
    and reports failures only through a local log line, never upward. -/
theorem send_status_interpretation_amended :
    (∀ r, lokiSendGo r = .ok () ↔ r = .status 204) ∧
    (∀ r, alertSendGo r = .ok () ↔ r = .status 200) ∧
    (∀ r, sendBatchGo r = none ↔ (r = .status 204 ∨ r = .status 200)) ∧
    (∀ r rest, lokiSendOnce (r :: rest) = (lokiSendGo r, rest)) ∧
    (∀ r rest, alertSendOnce (r :: rest) = (alertSendGo r, rest)) ∧
    (∀ r rest, sendBatchOnce (r :: rest) = (sendBatchGo r, rest)) := by
  refine ⟨?_, ?_, ?_, fun r rest => rfl, fun r rest => rfl, fun r rest => rfl⟩
  · intro r
    cases r with
    | failed => simp [lokiSendGo]
    | status c =>
      by_cases hc : c = 204
      · simp [lokiSendGo, hc]
      · simp [lokiSendGo, hc]
  · intro r
    cases r with
    | failed => simp [alertSendGo]
    | status c =>
      by_cases hc : c = 200
      · simp [alertSendGo, hc]
      · simp [alertSendGo, hc]
  · intro r
    cases r with
    | failed => simp [sendBatchGo]
    | status c =>
      by_cases hc : c = 204
      · simp [sendBatchGo, hc]
      · by_cases hc2 : c = 200
        · simp [sendBatchGo, hc, hc2]
        · simp [sendBatchGo, hc, hc2]

/-- The JSON object produced by logEntry.MarshalJSON (logger.go lines
    318-334): level as a string, the message, and the additionalValues map
    (the timestamp is excluded from the JSON line by its json tag). -/
structure LogEntryWire : Type where
  level : String
  message : String
  additionalValues : SMap GoVal
deriving DecidableEq, Repr

/-- logEntry.MarshalJSON: take slog.Level.String() and rewrite WARN to
    WARNING before serializing. -/
def logEntryMarshal (e : LogEntryE) : LogEntryWire :=
  let lvl := slogLevelString e.level
  let lvl := if lvl = "WARN" then "WARNING" else lvl
  { level := lvl, message := e.message, additionalValues := e.additionalValues }

/-- Claim C8: the level name serialized into the log-push JSON line equals
    the entry's slog level name, except that WARN is rewritten to WARNING;
    all other level names are serialized unchanged. -/
theorem level_warn_rewrite :
    ∀ e : LogEntryE,
      (e.level = .warn → (logEntryMarshal e).level = "WARNING") ∧
      (e.level ≠ .warn → (logEntryMarshal e).level = slogLevelString e.level) := by
  intro e
  constructor
  · intro h
    simp [logEntryMarshal, h, slogLevelString]
  · intro h
    cases hl : e.level with
    | debug => simp [logEntryMarshal, hl, slogLevelString]
    | info => simp [logEntryMarshal, hl, slogLevelString]
    | warn => exact absurd hl h
    | error => simp [logEntryMarshal, hl, slogLevelString]

/-- Witness for level_warn_rewrite: a WARN entry serializes as WARNING and an
    ERROR entry is unchanged. -/
theorem level_warn_rewrite_witness :
    (logEntryMarshal { level := .warn, timestamp := 0, message := "",
                       additionalValues := [] }).level = "WARNING" ∧
    (logEntryMarshal { level := .error, timestamp := 0, message := "",
                       additionalValues := [] }).level = slogLevelString .error :=
  ⟨(level_warn_rewrite _).1 rfl, (level_warn_rewrite _).2 (by decide)⟩

/-- Key validation applied to one even-position argument by Logger.log
    (logger.go lines 125-133): a non-string value, or the empty string, is a
    contract violation. -/
def keyErr : GoVal → Option String
  | .vstr s => if s = "" then some "empty string key" else none
  | _ => some "invalid key type"

/-- The key-checking loop of Logger.log (`for i := 0; i < len(args); i += 2`):
    every even-position argument must be a non-empty string. -/
def checkKeys : List GoVal → Option String
  | [] => none
  | [k] => keyErr k
  | k :: _ :: rest =>
    match keyErr k with
    | some e => some e
    | none => checkKeys rest

/-- The argument validation of Logger.log (logger.go lines 118-133): an odd
    argument count panics first, then each even-position key is checked. -/
def logPanicMsg (args : List GoVal) : Option String :=
  if args.length % 2 ≠ 0 then some "invalid number of arguments to log call"
  else checkKeys args

/-- Result of one call to a leveled log function. -/
inductive LogResult : Type
  | panicked (msg : String)
  | skipped
  | dispatched
deriving DecidableEq, Repr

/-- True exactly when the call panicked. -/
def LogResult.isPanic : LogResult → Bool
  | .panicked _ => true
  | _ => false

/-- Logger.log (logger.go lines 118-151), the common path behind Debug, Info,
    Warn and Error: validate the variadic arguments (panicking on violation),
    then drop the event when the logger's level is above the call's level,
    and otherwise dispatch to the registered callbacks. -/
def goLog (minLevel lvl : SlogLevel) (args : List GoVal) : LogResult :=
  match logPanicMsg args with
  | some m => .panicked m
  | none => if levelNum minLevel > levelNum lvl then .skipped else .dispatched

/-- Key-value argument lists as built by a disciplined caller. -/
def kvFlatten : List (String × GoVal) → List GoVal
  | [] => []
  | p :: rest => .vstr p.1 :: p.2 :: kvFlatten rest


theorem keyErr_none_iff (v : GoVal) :
    keyErr v = none ↔ ¬ ((∀ s, v ≠ .vstr s) ∨ v = .vstr "") := by
  cases v with
  | vstr s =>
    by_cases hs : s = ""
    · subst hs
      simp [keyErr]
    · simp [keyErr, hs]
  | vtime t => simp [keyErr]
  | vint n => simp [keyErr]
  | vbool b => simp [keyErr]
  | vnil => simp [keyErr]

theorem checkKeys_none_iff :
    ∀ l : List GoVal, checkKeys l = none ↔
      ∀ i v, nthA l i = some v → i % 2 = 0 → keyErr v = none
  | [] => by
    simp only [checkKeys, true_iff]
    intro i v hv
    cases i <;> exact absurd hv (by simp [nthA])
  | [k] => by
    simp only [checkKeys]
    constructor
    · intro h i v hv hev
      cases i with
      | zero =>
        cases hv
        exact h
      | succ n => cases n <;> exact absurd hv (by simp [nthA])
    · intro h
      exact h 0 k rfl rfl
  | k :: v :: rest => by
    have ih := checkKeys_none_iff rest
    simp only [checkKeys]
    constructor
    · intro h i w hw hev
      cases hk : keyErr k with
      | some e =>
        rw [hk] at h
        exact absurd h (by simp)
      | none =>
        rw [hk] at h
        cases i with
        | zero =>
          cases hw
          exact hk
        | succ n =>
          cases n with
          | zero => exact absurd hev (by decide)
          | succ m => exact (ih.mp h) m w hw (by omega)
    · intro h
      have hk : keyErr k = none := h 0 k rfl rfl
      rw [hk]
      exact ih.mpr (fun i w hw hev => h (i + 2) w hw (by omega))

theorem kvFlatten_length_even :
    ∀ pairs : List (String × GoVal), (kvFlatten pairs).length % 2 = 0 := by
  intro pairs
  induction pairs with
  | nil => rfl
  | cons p rest ih =>
    simp only [kvFlatten, List.length_cons]
    omega

theorem checkKeys_kvFlatten :
    ∀ pairs : List (String × GoVal), (∀ p ∈ pairs, p.1 ≠ "") →
      checkKeys (kvFlatten pairs) = none := by
  intro pairs
  induction pairs with
  | nil => intro _; rfl
  | cons p rest ih =>
    intro h
    have hp : p.1 ≠ "" := h p (List.mem_cons_self p rest)
    show checkKeys (.vstr p.1 :: p.2 :: kvFlatten rest) = none
    simp only [checkKeys, keyErr, hp, if_neg]
    exact ih (fun q hq => h q (List.mem_cons_of_mem p hq))

/-- Claim C9: a call to any leveled log function panics exactly when the
    variadic argument list has odd length, or some even-position argument is
    not a string or is the empty string; and a call built from key-value
    pairs with non-empty string keys never panics, whatever the levels. -/
theorem log_panic_characterization :
    ∀ (minLevel lvl : SlogLevel) (args : List GoVal),
      ((goLog minLevel lvl args).isPanic = true ↔
        (args.length % 2 = 1 ∨
          ∃ i v, nthA args i = some v ∧ i % 2 = 0 ∧
            ((∀ s, v ≠ .vstr s) ∨ v = .vstr ""))) ∧
      (∀ pairs : List (String × GoVal), (∀ p ∈ pairs, p.1 ≠ "") →
        (goLog minLevel lvl (kvFlatten pairs)).isPanic = false) := by
  intro minLevel lvl args
  have hpan : ∀ as : List GoVal, (goLog minLevel lvl as).isPanic =
      (logPanicMsg as).isSome := by
    intro as
    cases h : logPanicMsg as with
    | some m => simp [goLog, h, LogResult.isPanic]
    | none =>
      by_cases hl : levelNum minLevel > levelNum lvl
      · simp [goLog, h, hl, LogResult.isPanic]
      · simp [goLog, h, hl, LogResult.isPanic]
  constructor
  · rw [hpan]
    by_cases hodd : args.length % 2 = 0
    · have hne : ¬ args.length % 2 ≠ 0 := by omega
      have h1 : ¬ (args.length % 2 = 1) := by omega
      simp only [logPanicMsg, if_neg hne, h1, false_or]
      constructor
      · intro h
        by_contra hno
        push_neg at hno
        have hnone : checkKeys args = none := by
          rw [checkKeys_none_iff]
          intro i v hv hev
          obtain ⟨⟨s, hs⟩, hne2⟩ := hno i v hv hev
          subst hs
          have hsne : s ≠ "" := fun h0 => hne2 (by rw [h0])
          simp [keyErr, hsne]
        rw [hnone] at h
        exact absurd h (by simp)
      · rintro ⟨i, v, hv, hev, hbad⟩
        cases hck : checkKeys args with
        | some m => simp
        | none =>
          have := (checkKeys_none_iff args).mp hck i v hv hev
          rw [keyErr_none_iff] at this
          exact absurd hbad this
    · have hodd2 : args.length % 2 = 1 := by omega
      have hne : args.length % 2 ≠ 0 := by omega
      simp [logPanicMsg, hne, hodd2]
  · intro pairs hp
    rw [hpan]
    have hlen : ¬ (kvFlatten pairs).length % 2 ≠ 0 := by
      have := kvFlatten_length_even pairs
      omega
    have hck := checkKeys_kvFlatten pairs hp
    simp [logPanicMsg, if_neg hlen, hck, kvFlatten_length_even pairs]

/-- Witness for log_panic_characterization: a valid key-value call does not
    panic and a non-string key panics. -/
theorem log_panic_characterization_witness :
    (goLog .info .info (kvFlatten [("k", GoVal.vint 1)])).isPanic = false ∧
    (goLog .info .info [GoVal.vint 1, GoVal.vstr "x"]).isPanic = true := by
  constructor
  · exact (log_panic_characterization .info .info
      (kvFlatten [("k", GoVal.vint 1)])).2 [("k", GoVal.vint 1)] (by decide)
  · exact (log_panic_characterization .info .info
      [GoVal.vint 1, GoVal.vstr "x"]).1.mpr
      (Or.inr ⟨0, .vint 1, rfl, rfl, Or.inl (fun s h => GoVal.noConfusion h)⟩)
